import Mathlib

/-!
Verification of the MiniZinc front-end semantic analyser (src/lib/typecheck.cpp)
against its specification.

The development shallowly embeds the parts of `typecheck.cpp` that the claims
concern:

* the type representation (`MType`), following §3 of the spec and the uses of
  `Type` in typecheck.cpp (the `Type` class itself lives in the AST headers,
  outside the provided sources; its field structure is taken from the spec's
  data model and the accesses `bt()/ti()/st()/ot()/dim()/enumId()/cv()` made by
  typecheck.cpp);
* the scope stack `Scopes` (`Scopes::add`, `Scopes::find`, typecheck.cpp lines
  29-96);
* the topological sorter `TopoSorter::run` / `TopoSorter::checkId`
  (lines 1205-1394);
* the scalar fragment of `add_coercion` (lines 1497-1553);
* the count-rewrite in `Typer::vBinOp` (lines 2291-2415);
* the set-literal branch and the constructor branch of `create_enum_mapper`
  (lines 159-345, 495-537, 624-666, 840-849);
* the missing-parameter post-condition loop of `typecheck` (lines 3799-3810).
-/

namespace MZ

/-- Base kinds of the type lattice (`Type::BaseType`). -/
inductive BaseT where
  | unknown | bot | top | bool | int | float | string | ann
deriving DecidableEq, Repr

/-- Instantiation (`Type::TI_PAR` / `Type::TI_VAR`). -/
inductive TIk where
  | par | var
deriving DecidableEq, Repr

/-- Setness (`Type::ST_PLAIN` / `Type::ST_SET`). -/
inductive SetT where
  | plain | set
deriving DecidableEq, Repr

/-- Optionality (`Type::OT_PRESENT` / `Type::OT_OPTIONAL`). -/
inductive OptT where
  | present | optional
deriving DecidableEq, Repr

/-- The type tuple of §3 of the spec: base kind, instantiation, setness,
optionality, dimension, enum tag, contains-var flag.  The `Type` class is
declared in the AST headers (outside the provided sources); this structure
models exactly the components typecheck.cpp reads and writes. -/
structure MType where
  bt : BaseT
  ti : TIk
  st : SetT
  ot : OptT
  dim : Nat
  enumId : Nat
  cv : Bool
deriving DecidableEq, Repr

/-- `Type::parint()`. -/
def parint : MType := ⟨.int, .par, .plain, .present, 0, 0, false⟩

/-- `Type::varint()`. -/
def varint : MType := ⟨.int, .var, .plain, .present, 0, 0, false⟩

/-- `Type::parbool()`. -/
def parbool : MType := ⟨.bool, .par, .plain, .present, 0, 0, false⟩

/-- `Type::varbool()`. -/
def varbool : MType := ⟨.bool, .var, .plain, .present, 0, 0, false⟩

/-- `Type::parstring()`. -/
def parstring : MType := ⟨.string, .par, .plain, .present, 0, 0, false⟩

/-- `Type::parenum(enumId)` (used at typecheck.cpp:248 for enum constants). -/
def parenum (e : Nat) : MType := ⟨.int, .par, .plain, .present, 0, e, false⟩

/-- `opt int` parameter type `tx` built at typecheck.cpp:288-289:
`Type::parint()` with `ot(OT_OPTIONAL)`. -/
def optParint : MType := ⟨.int, .par, .plain, .optional, 0, 0, false⟩

/-- One-dimensional `array [int] of string` (the type of the
`_enum_to_string_<p>_<E>` constants, typecheck.cpp:281-284). -/
def parstring1 : MType := ⟨.string, .par, .plain, .present, 1, 0, false⟩

/-- `Type::isint()`: scalar plain int (dimension 0). -/
def MType.isint (t : MType) : Prop := t.bt = .int ∧ t.st = .plain ∧ t.dim = 0

/-- `Type::isvar()`. -/
def MType.isvar (t : MType) : Prop := t.ti = .var

/-- `Type::isOpt()`. -/
def MType.isOpt (t : MType) : Prop := t.ot = .optional

/-- `Type::isPar()`. -/
def MType.isPar (t : MType) : Prop := t.ti = .par

/-- `Type::isAnn()`: base kind `ann` (the precise definition lives in the AST
headers outside the provided sources; the spec speaks of "non-ann type"). -/
def MType.isAnn (t : MType) : Prop := t.bt = .ann

/-- `Type::isIntArray()`: an array whose elements are plain ints (definition
in the AST headers outside the provided sources; used by the guard at
typecheck.cpp:2378). -/
def MType.isIntArray (t : MType) : Prop := t.dim ≠ 0 ∧ t.bt = .int ∧ t.st = .plain

instance (t : MType) : Decidable t.isint := by unfold MType.isint; infer_instance
instance (t : MType) : Decidable t.isvar := by unfold MType.isvar; infer_instance
instance (t : MType) : Decidable t.isOpt := by unfold MType.isOpt; infer_instance
instance (t : MType) : Decidable t.isPar := by unfold MType.isPar; infer_instance
instance (t : MType) : Decidable t.isAnn := by unfold MType.isAnn; infer_instance
instance (t : MType) : Decidable t.isIntArray := by
  unfold MType.isIntArray; infer_instance

/-! ## Scope stack (`Scopes`, typecheck.cpp lines 29-96)

A scope is a kind tag plus a map from identifiers to declarations
(`Scopes::Scope` is declared in the typecheck header, outside the provided
sources; its two members `st` and `m` and the kinds `ST_TOPLEVEL`, `ST_FUN`,
`ST_INNER` are visible from their uses in typecheck.cpp).  The stack `_s` is
modelled as a list with index 0 the outermost scope, as in the C++ vector.
Declarations are identified by a `Nat` token.  Identifiers carry their string
and id-number, as `Id::v()` / `Id::idn()` do. -/

/-- An identifier: string part `v` and numeric part `idn`. -/
structure Ident where
  v : String
  idn : Int
deriving DecidableEq, Repr

/-- Scope kinds `ST_TOPLEVEL`, `ST_FUN`, `ST_INNER`. -/
inductive SKind where
  | toplevel | fn | inner
deriving DecidableEq, Repr

/-- A single scope: kind tag and identifier-to-declaration map (the map is an
association list standing for the `IdMap`). -/
structure Scope where
  st : SKind
  m : List (Ident × Nat)
deriving DecidableEq, Repr

/-- `IdMap::find` on one scope's map. -/
def lookupId : List (Ident × Nat) → Ident → Option Nat
  | [], _ => none
  | (k, d) :: rest, i => if k = i then some d else lookupId rest i

/-- `Scope::toplevel()`. -/
def Scope.toplevel (sc : Scope) : Bool := sc.st = SKind.toplevel

/-- Fetch `_s[i]`; out-of-range reads never occur for well-formed stacks
(the bottom scope exists from `Scopes::Scopes()` on). -/
def getScope (s : List Scope) (i : Nat) : Scope := s.getD i ⟨SKind.toplevel, []⟩

/-- The loop of `Scopes::find` (typecheck.cpp:78-96), by the cursor `cur`.
At `cur = 0` a failed lookup returns `none`: in the source, scope 0 is the
toplevel scope installed by `Scopes::Scopes()` (line 29), so `toplevel()`
holds and `cur > 0` fails, returning `nullptr`. -/
def findAux (s : List Scope) (ident : Ident) : Nat → Option Nat
  | 0 => lookupId (getScope s 0).m ident
  | cur+1 =>
    match lookupId (getScope s (cur+1)).m ident with
    | some d => some d
    | none =>
      if (getScope s (cur+1)).toplevel
      then findAux s ident 0        -- `cur = 0`: jump to the outermost scope
      else findAux s ident cur      -- `cur--`

/-- `Scopes::find` (typecheck.cpp:78-96). -/
def scFind (s : List Scope) (ident : Ident) : Option Nat :=
  findAux s ident (s.length - 1)

/-- The chain of scope indices visited on the way out from index `cur`,
as the claim describes it: outwards through `inner`/`function` scopes,
stopping at the first `toplevel` scope reached. -/
def outwardVisit (s : List Scope) : Nat → List Nat
  | 0 => [0]
  | c+1 => (c+1) :: (if (getScope s (c+1)).toplevel then [] else outwardVisit s c)

/-- First successful lookup along a list of scope indices. -/
def firstHit (s : List Scope) (ident : Ident) : List Nat → Option Nat
  | [] => none
  | i :: rest =>
    match lookupId (getScope s i).m ident with
    | some d => some d
    | none => firstHit s ident rest

/-- The claim's description of lookup: search the outward chain from the
innermost scope; if no scope on that chain (which ends at the first toplevel
scope reached) contains the identifier, consult the outermost scope (index 0)
directly; fail if it also lacks the identifier. -/
def scFindSpec (s : List Scope) (ident : Ident) : Option Nat :=
  match firstHit s ident (outwardVisit s (s.length - 1)) with
  | some d => some d
  | none => lookupId (getScope s 0).m ident

/-! ### `Scopes::add` (typecheck.cpp lines 31-68) -/

/-- The part of a `VarDecl` that `Scopes::add` inspects: its identifier,
whether its type-instance is flagged as an enum (`vd->ti()->isEnum()`), and
whether it has an initialiser (`vd->e() != nullptr`). -/
structure VDsc where
  id : Ident
  tiIsEnum : Bool
  hasRHS : Bool
deriving DecidableEq, Repr

/-- The two `TypeError`s `Scopes::add` can throw. -/
inductive AddErr where
  | enumsOnlyTopLevel   -- "enums are only allowed at top level" (line 33)
  | alreadyDefined      -- "identifier `...' already defined" (line 66)
deriving DecidableEq, Repr

/-- The shadow scan of `Scopes::add` (lines 42-56): walk the enclosing scopes
from just below the top; warn on the first scope containing the identifier;
stop silently at the first non-`inner` scope that does not contain it.
The argument lists the enclosing scopes innermost-first
(`_s[size-2], _s[size-3], …, _s[0]`). -/
def scanShadow : List Scope → Ident → Bool
  | [], _ => false
  | sc :: rest, i =>
    if (lookupId sc.m i).isSome then true
    else if sc.st ≠ SKind.inner then false
    else scanShadow rest i

/-- Insert into the innermost scope (the `_s.back().m.insert` of line 61). -/
def insertTop (s : List Scope) (id : Ident) (d : Nat) : List Scope :=
  s.dropLast ++ [⟨(getScope s (s.length - 1)).st,
                 (id, d) :: (getScope s (s.length - 1)).m⟩]

/-- `Scopes::add` (typecheck.cpp:31-68).  Returns whether a shadow warning
was emitted (`env.addWarning`, line 50) together with either the updated
stack or the thrown `TypeError`.  `d` is the declaration token inserted. -/
def scAdd (s : List Scope) (vd : VDsc) (d : Nat) :
    Bool × Except AddErr (List Scope) :=
  let cur := getScope s (s.length - 1)
  if ¬ cur.toplevel ∧ vd.tiIsEnum ∧ vd.hasRHS then
    (false, .error .enumsOnlyTopLevel)
  else if vd.id.idn = -1 ∧ vd.id.v = "" then
    (false, .ok s)
  else
    let warned := cur.st = SKind.inner ∧
      scanShadow ((s.take (s.length - 1)).reverse) vd.id
    match lookupId cur.m vd.id with
    | none => (decide warned, .ok (insertTop s vd.id d))
    | some _ =>
      if vd.id.idn ≥ -1 then (decide warned, .error .alreadyDefined)
      else (decide warned, .ok s)

/-! ## Driver post-condition on missing inputs (typecheck.cpp lines 3799-3810)

The loop `for (auto& decl : ts.decls)` at the end of `typecheck` inspects
every declaration collected by the topological sorter.  Lines 3799-3810 (the
missing-parameter handling covered by the claim) are modelled per
declaration; the enum demotion of lines 3811-3816 acts on the type-instance
and is outside this model. -/

/-- The initialiser slot of a declaration after the passes: either the
`absent` literal installed by the post-condition, or an initialiser that was
already present. -/
inductive PInit where
  | absentLit | given
deriving DecidableEq, Repr

/-- The part of a `VarDecl` the post-condition loop reads and writes. -/
structure PDecl where
  toplevel : Bool
  ty : MType
  e : Option PInit
  anns : List String
deriving DecidableEq, Repr

/-- The body of the loop at typecheck.cpp:3799-3810 for one declaration:
returns the updated declaration and the list of errors appended to the
accumulated `typeErrors` (the source message names the declaration; the
model keeps the distinguishing phrase). -/
def finalizeDecl (ignoreUndefinedParameters : Bool) (d : PDecl) :
    PDecl × List String :=
  if d.toplevel = true ∧ d.ty.isPar ∧ ¬ d.ty.isAnn ∧ d.e = none then
    if d.ty.isOpt ∧ d.ty.dim = 0 then
      ({ d with e := some .absentLit,
                anns := d.anns ++ ["mzn_was_undefined"] }, [])
    else if ¬ ignoreUndefinedParameters then
      (d, ["must be defined"])
    else (d, [])
  else (d, [])

/-- The whole loop, over the sorter's declaration list. -/
def finalizeAll (ignoreUndefinedParameters : Bool) :
    List PDecl → List PDecl × List String
  | [] => ([], [])
  | d :: ds =>
    let r := finalizeDecl ignoreUndefinedParameters d
    let rs := finalizeAll ignoreUndefinedParameters ds
    (r.1 :: rs.1, r.2 ++ rs.2)

/-! ## The scalar fragment of `add_coercion` (typecheck.cpp lines 1497-1553)

The slice rewrite of lines 1397-1496 applies only to array-access
expressions, which this expression type does not include (the claim concerns
scalar coercions).  `m->matchFn` consults the function registry, which is the
standard library (outside the provided sources); the model carries the
registry as a list of function names. -/

/-- Expressions as `add_coercion` sees them: only the type matters, plus
enough structure to express the wrapping calls. -/
inductive CExpr where
  | identE (name : String) (ty : MType)
  | callE (id : String) (args : List CExpr) (ty : MType)
  | otherE (ty : MType)
deriving Repr

/-- `e->type()`. -/
def CExpr.tyOf : CExpr → MType
  | .identE _ t => t
  | .callE _ _ t => t
  | .otherE t => t

/-- The `TypeError`s thrown by the modelled fragment of `add_coercion`. -/
inductive CoErr where
  | varSetToArray     -- "cannot coerce var set into array" (line 1506)
  | optSetToArray     -- "cannot coerce opt set into array" (line 1509)
  | cannotCoerce      -- "cannot determine coercion from type ..." (line 1550)
deriving DecidableEq, Repr

/-- Modelled from the spec: the registry's `bool2int`, `bool2float` and
`int2float` overloads (standard library, outside the provided sources)
return the argument's type with the base kind widened to the target
(§4.E and scenario 1: a `var bool` argument yields `var int`). -/
def coerceRT (target : BaseT) (argTy : MType) : MType :=
  { argTy with bt := target }

/-- Modelled from the spec: the registry's `set2array` returns the
argument's element type as a one-dimensional array (§4.E "set→array"). -/
def set2arrayRT (argTy : MType) : MType :=
  { argTy with st := .plain, dim := 1 }

/-- `add_coercion` (typecheck.cpp:1497-1553), for non-array-access
expressions.  `reg` is the set of function names the registry can match. -/
def addCoercion (reg : List String) (e : CExpr) (t : MType) :
    Except CoErr CExpr :=
  -- first early return (line 1497)
  if e.tyOf.dim = t.dim ∧
      (t.bt = .bot ∨ t.bt = .top ∨ e.tyOf.bt = t.bt ∨ e.tyOf.bt = .bot) then
    .ok e
  else
    -- set-to-array insertion (lines 1504-1520)
    let step1 : Except CoErr CExpr :=
      if e.tyOf.dim = 0 ∧ t.dim ≠ 0 then
        if e.tyOf.isvar then .error .varSetToArray
        else if e.tyOf.isOpt then .error .optSetToArray
        else if "set2array" ∈ reg then
          .ok (.callE "set2array" [e] (set2arrayRT e.tyOf))
        else .ok e
      else .ok e
    match step1 with
    | .error er => .error er
    | .ok e1 =>
      -- second early return (line 1521)
      if t.bt = .top ∨ e1.tyOf.bt = t.bt ∨ e1.tyOf.bt = .bot then .ok e1
      else
        -- scalar widening calls (lines 1526-1552)
        let mk : String → BaseT → Except CoErr CExpr := fun cid tb =>
          if cid ∈ reg then
            let ct := coerceRT tb e1.tyOf
            .ok (.callE cid [e1] { ct with cv := e1.tyOf.cv || ct.cv })
          else .error .cannotCoerce
        match e1.tyOf.bt, t.bt with
        | .bool, .int => mk "bool2int" .int
        | .bool, .float => mk "bool2float" .float
        | .int, .float => mk "int2float" .float
        | _, _ => .error .cannotCoerce

/-! ## The count rewrite in `Typer::vBinOp` (typecheck.cpp lines 2291-2415)

After overload resolution of a comparison between two ints, the typer
rewrites `(sum/count …) <cmp> rhs` into a `count_*` call, normalising the
comparator orientation first when the call is on the right-hand side. -/

/-- The binary operator tokens that matter here (`BinOpType`): `BOT_EQ`,
`BOT_NQ`, `BOT_LQ` (≤), `BOT_LE` (<), `BOT_GQ` (≥), `BOT_GR` (>); all
other operators are collapsed into `other`. -/
inductive BOp where
  | eq | nq | lq | le | gq | gr | other
deriving DecidableEq, Repr

/-- Expressions as `vBinOp`'s rewrite inspects them, with their types
already assigned by the bottom-up typer. -/
inductive NExpr where
  | intLit (n : Int) (ty : MType)
  | identN (name : String) (ty : MType)
  | callN (id : String) (args : List NExpr) (ty : MType)
  | compN (genVars : List String) (body : NExpr) (ty : MType)
  | binopN (op : BOp) (lhs rhs : NExpr) (ty : MType)
  | accessN (arr : NExpr) (idx : NExpr) (ty : MType)
deriving Repr

/-- `e->type()`. -/
def NExpr.tyOf : NExpr → MType
  | .intLit _ t => t
  | .identN _ t => t
  | .callN _ _ t => t
  | .compN _ _ t => t
  | .binopN _ _ _ t => t
  | .accessN _ _ t => t

mutual

/-- `Comprehension::containsBoundVariable` (declared in the AST headers,
outside the provided sources): whether the expression mentions an
identifier bound by one of the comprehension's generators.  Generator-bound
variables are identified by name here. -/
def mentionsAny (vs : List String) : NExpr → Bool
  | .intLit _ _ => false
  | .identN n _ => vs.contains n
  | .callN _ args _ => mentionsList vs args
  | .compN _ b _ => mentionsAny vs b
  | .binopN _ l r _ => mentionsAny vs l || mentionsAny vs r
  | .accessN a i _ => mentionsAny vs a || mentionsAny vs i

/-- Auxiliary walk of `mentionsAny` over argument lists. -/
def mentionsList (vs : List String) : List NExpr → Bool
  | [] => false
  | e :: es => mentionsAny vs e || mentionsList vs es

end

/-- `InternalError` thrown when the registry lacks the `count_*` builtin
(typecheck.cpp:2368-2372, 2406-2410). -/
inductive CntErr where
  | internalError (cid : String)
deriving DecidableEq, Repr

/-- The guard of line 2291-2293: the operator is one of the six
comparisons. -/
def cmpOp (op : BOp) : Bool :=
  op = .eq || op = .gq || op = .gr || op = .nq || op = .le || op = .lq

/-- The orientation normalisation of lines 2300-2315, applied when the
sum/count call is found on the right-hand side. -/
def flipCmp : BOp → BOp
  | .lq => .gq
  | .le => .gr
  | .gq => .lq
  | .gr => .le
  | o => o

/-- The comparison-to-`count_*` name switch of lines 2338-2359 (and
identically 2382-2403).  The `other` case is unreachable behind `cmpOp`
(the `default: assert(false)` of the source). -/
def cidOfCmp : BOp → String
  | .eq => "count_eq"
  | .gq => "count_leq"
  | .gr => "count_lt"
  | .lq => "count_geq"
  | .le => "count_gt"
  | .nq => "count_neq"
  | .other => ""

/-- The count rewrite of `Typer::vBinOp` (typecheck.cpp:2291-2415), applied
to a binary operation `lhs <op> rhs` whose node already carries type `bty`.
Returns `some` of the morphed call when the rewrite fires, `none` when the
operation is left alone, and an internal error when the registry `reg`
lacks the target builtin (`m->matchFn`; the registry is the standard
library, outside the provided sources). -/
def countRewrite (reg : List String) (op : BOp) (lhs rhs : NExpr)
    (bty : MType) : Except CntErr (Option NExpr) :=
  if lhs.tyOf.isint ∧ rhs.tyOf.isint ∧ cmpOp op = true then
    -- lines 2294-2316: pick the call side, flipping the comparator when the
    -- call is on the right
    let sel : Option (String × List NExpr × MType × NExpr × BOp) :=
      match lhs with
      | .callN cid args cty => some (cid, args, cty, rhs, op)
      | _ =>
        match rhs with
        | .callN cid args cty => some (cid, args, cty, lhs, flipCmp op)
        | _ => none
    match sel with
    | none => .ok none
    | some (cid0, args, cty, otherSide, bot) =>
      if (cid0 = "count" ∨ cid0 = "sum") ∧ cty.isvar then
        match args with
        | [NExpr.compN gv cbody compTy] =>
          -- lines 2320-2377: single comprehension argument
          match cbody with
          | .binopN iop il ir _ =>
            if iop = .eq ∧ il.tyOf.isint ∧ ¬ il.tyOf.isOpt ∧
                ¬ ir.tyOf.isOpt then
              let gc : Option (NExpr × NExpr) :=
                if mentionsAny gv ir then
                  if mentionsAny gv il then none else some (ir, il)
                else some (il, ir)
              match gc with
              | none => .ok none
              | some (generated, comparedTo) =>
                let cid := cidOfCmp bot
                let comp2 := NExpr.compN gv generated
                  { compTy with bt := generated.tyOf.bt }
                if cid ∈ reg then
                  .ok (some (.callN cid [comp2, comparedTo, otherSide] bty))
                else .error (.internalError cid)
            else .ok none
          | _ => .ok none
        | [a0, a1] =>
          -- lines 2378-2413: `count(array, value)` with two arguments
          if a0.tyOf.isIntArray ∧ a1.tyOf.isint then
            let cid := cidOfCmp bot
            if cid ∈ reg then
              .ok (some (.callN cid [a0, a1, otherSide] bty))
            else .error (.internalError cid)
          else .ok none
        | _ => .ok none
      else .ok none
  else .ok none

/-! ### The concrete input of scenario 6 / claim C2:
`var int: n; constraint sum(i in 1..5) (a[i] = 3) >= n;` with
`a: array[1..5] of var int`. -/

/-- Type of `a`: `array [1..5] of var int`. -/
def cntArrTy : MType := ⟨.int, .var, .plain, .present, 1, 0, false⟩

/-- `a[i] = 3`, the comprehension body (type `var bool`). -/
def cntBody : NExpr :=
  .binopN .eq (.accessN (.identN "a" cntArrTy) (.identN "i" parint) varint)
    (.intLit 3 parint) varbool

/-- `[a[i] = 3 | i in 1..5]` as typed by the typer: `array of var bool`. -/
def cntComp : NExpr :=
  .compN ["i"] cntBody ⟨.bool, .var, .plain, .present, 1, 0, false⟩

/-- `sum(i in 1..5)(a[i] = 3)` : `var int`. -/
def cntSum : NExpr := .callN "sum" [cntComp] varint

/-- `n` : `var int`. -/
def cntN : NExpr := .identN "n" varint

/-- The registry slice with the six `count_*` builtins. -/
def cntReg : List String :=
  ["count_eq", "count_neq", "count_leq", "count_lt", "count_geq", "count_gt"]

/-- The comprehension after the rewrite: body `a[i]`, base kind int. -/
def cntComp2 : NExpr :=
  .compN ["i"] (.accessN (.identN "a" cntArrTy) (.identN "i" parint) varint)
    ⟨.int, .var, .plain, .present, 1, 0, false⟩

/-! ## Enum elaboration (`create_enum_mapper`, typecheck.cpp lines 159-910)

The claims concern the set-literal branch (lines 239-345), the constructor
function bodies (lines 495-537 and 633-666) and the right-hand-side rewrite
(lines 840-849).  Emitted AST is modelled by `EExpr`/`EItem`.  `to_enum`
calls carry a dedicated constructor because the round-trip claim evaluates
them. -/

/-- Binary operators appearing in the emitted enum items. -/
inductive EBop where
  | plus | minus | dotdot | plusplus | lqB | eqB
deriving DecidableEq, Repr

/-- Emitted expressions. -/
inductive EExpr where
  | intE (n : Int)
  | strE (s : String)
  | idE (name : String)
  | toEnumE (enumRef : EExpr) (arg : EExpr)   -- `Call "to_enum" {enumRef, arg}`
  | callE (id : String) (args : List EExpr)
  | binE (op : EBop) (l r : EExpr)
  | iteE (ifs : List (EExpr × EExpr)) (els : EExpr)
  | accE (arr : EExpr) (idx : EExpr)
  | arrE (elems : List EExpr)
deriving Repr

/-- Emitted items (`VarDeclI`, `FunctionI`, `ConstraintI`). -/
inductive EItem where
  | varDeclI (name : String) (ty : MType) (init : EExpr)
  | funcI (name : String) (retTy : MType) (params : List (String × MType))
      (body : Option EExpr)
  | constraintI (e : EExpr)
deriving Repr

/-- Modelled from the spec: `create_enum_to_string_name` (declared in the
typecheck header, outside the provided sources) prepends the given prefix to
the enum identifier, giving names such as `_enum_to_string_0_E` and
`_toString_E` (spec §4.C and scenario 2). -/
def enumHelperName (pre : String) (ident : String) : String := pre ++ ident

/-- `toEnumArgs[1]` for the `i`-th (0-based) identifier of a set-literal
part: `i + 1`, offset by the previous parts' cardinality when there is one
(typecheck.cpp:252-257). -/
def toEnumArg (prevCard : Option EExpr) (i : Nat) : EExpr :=
  match prevCard with
  | none => .intE (i + 1)
  | some pc => .binE .plus pc (.intE (i + 1))

/-- The constant declarations emitted for a set-literal part
(typecheck.cpp:242-268): the `k`-th identifier becomes a toplevel constant
of this enum's par type initialised with `to_enum(E, k + partOffset)`. -/
def setLitConstDecls (ename : String) (enumId : Nat) (prevCard : Option EExpr)
    (ids : List String) : List EItem :=
  ((List.range ids.length).zip ids).map fun p =>
    .varDeclI p.2 (parenum enumId)
      (.toEnumE (.idE ename) (toEnumArg prevCard p.1))

/-- The value `partCardinality.back()` after a set-literal part: unchanged
for an empty literal, else the `toEnumArgs[1]` of the last identifier
(typecheck.cpp:264-267). -/
def setLitPartCard (prevCard : Option EExpr) (ids : List String) :
    Option EExpr :=
  if ids.isEmpty then prevCard else some (toEnumArg prevCard (ids.length - 1))

/-- The array-of-string constant holding the identifier spellings
(typecheck.cpp:270-286). -/
def setLitStringArr (ename : String) (p : Nat) (ids : List String) : EItem :=
  .varDeclI (enumHelperName ("_enum_to_string_" ++ toString p ++ "_") ename)
    parstring1 (.arrE (ids.map .strE))

/-- The body of the per-part to-string function (typecheck.cpp:305-336):
handles `absent` (DZN `<>` / JSON `null`), DZN quoted-identifier mode and
JSON mode, otherwise indexes the string array, offsetting by the previous
parts' cardinality. -/
def setLitToStringBody (arrName : String) (prevCard : Option EExpr) : EExpr :=
  let deopt := EExpr.callE "deopt" [.idE "x"]
  let occurs := EExpr.callE "occurs" [.idE "x"]
  let aaArg : EExpr :=
    match prevCard with
    | none => deopt
    | some pc => .binE .minus deopt pc
  let aa := EExpr.accE (.idE arrName) aaArg
  let ifAbsent := EExpr.iteE [(.idE "json", .strE "null")] (.strE "<>")
  let quoteAA := EExpr.binE .plusplus
    (.binE .plusplus (.strE "\x7b\"e\":") (.callE "show" [aa])) (.strE "\x7d")
  let quoteDzn := EExpr.callE "showDznId" [aa]
  .iteE [(occurs, .iteE [(.idE "b", quoteDzn), (.idE "json", quoteAA)] aa)]
    ifAbsent

/-- The per-part to-string function item (typecheck.cpp:288-345), with
parameters `(opt int: x, bool: b, bool: json)`; named `_toString_<E>` for a
single-part enum, `_toString_<p>_<E>` otherwise (lines 338-341). -/
def setLitToStringItem (ename : String) (p : Nat) (single : Bool)
    (prevCard : Option EExpr) : EItem :=
  .funcI (enumHelperName
      (if single then "_toString_" else "_toString_" ++ toString p ++ "_") ename)
    parstring [("x", optParint), ("b", parbool), ("json", parbool)]
    (some (setLitToStringBody
      (enumHelperName ("_enum_to_string_" ++ toString p ++ "_") ename) prevCard))

/-- `create_enum_mapper` for an enum whose right-hand side is a single set
literal of fresh identifiers (parts = one set literal; typecheck.cpp
201-202, 239-345, 840-849): emits the constants, the string array and the
to-string function, and returns the new right-hand side
`1 .. totalCardinality` (`1..0` for an empty enum). -/
def elabEnumSetLit (ename : String) (enumId : Nat) (ids : List String) :
    List EItem × EExpr :=
  let consts := setLitConstDecls ename enumId none ids
  let card := setLitPartCard none ids
  let items := consts ++ [setLitStringArr ename 0 ids,
                          setLitToStringItem ename 0 true none]
  let upper : EExpr :=
    match card with
    | some e => e
    | none => .intE 0
  (items, .binE .dotdot (.intE 1) upper)

/-! ### Constructor enums (C7) -/

/-- Body of the generated constructor `C` (typecheck.cpp:505-520):
`C(x) = to_enum(X, constructorArgMin + x)` where `X` is the new enum and
`constructorArgMin` the interned offset constant of lines 478-493. -/
def cBody (X cmin : String) : EExpr :=
  .toEnumE (.idE X) (.binE .plus (.idE cmin) (.idE "x"))

/-- Body of the generated inverse `C⁻¹` (typecheck.cpp:633-648):
`C⁻¹(x) = to_enum(E, x − constructorArgMin)` where `E` is the constructor's
argument enum. -/
def cInvBody (E cmin : String) : EExpr :=
  .toEnumE (.idE E) (.binE .minus (.idE "x") (.idE cmin))

/-- Modelled from the spec: evaluation of the arithmetic fragment of the
generated bodies.  Enums are internally contiguous ranges of integers
tagged with the enum id (glossary), and `to_enum(E, k)` denotes the `k`-th
element, numerically `k` itself; other constructs are not needed for the
round-trip and evaluate to `none`. -/
def evalE (env : String → Int) : EExpr → Option Int
  | .intE n => some n
  | .idE v => some (env v)
  | .toEnumE _ a => evalE env a
  | .binE .plus l r =>
    match evalE env l, evalE env r with
    | some a, some b => some (a + b)
    | _, _ => none
  | .binE .minus l r =>
    match evalE env l, evalE env r with
    | some a, some b => some (a - b)
    | _, _ => none
  | _ => none

/-- Run a generated one-parameter function body: the parameter `x` is bound
to `x`, the `constructorArgMin` constant has value `m`. -/
def runCons (body : EExpr) (m x : Int) : Option Int :=
  evalE (fun v => if v = "x" then x else m) body

/-! ## Topological sorter (`TopoSorter`, typecheck.cpp lines 1175-1394)

`TopoSorter::run` walks every expression; identifiers are resolved through
the scope stack and then processed by `TopoSorter::checkId`
(lines 1205-1231).  For this model identifiers already carry the resolved
declaration token (`Id::decl`); name resolution itself is claim C3's
subject, and an unresolved identifier throws before the sorter's state is
touched.  Every expression kind whose `run` case simply recurses into its
children in a fixed order (`E_SETLIT`, `E_ARRAYLIT`, `E_ARRAYACCESS`,
`E_COMP`, `E_ITE`, `E_BINOP`, `E_UNOP`, `E_CALL`, `E_TI`, `E_LET`,
annotations) is represented by `seq` nodes; the scope pushes and the
stable sort of `let` items (lines 1364-1373) do not touch `pos`/`decls`.
A `VarDecl` node carries its declaration token; its type-instance and
initialiser are looked up in the declaration environment `env`. -/

/-- Expressions as the sorter traverses them. -/
inductive TExp where
  | lit                 -- literals and other leaves
  | eid (d : Nat)       -- an identifier resolved to declaration `d`
  | evd (d : Nat)       -- the `VarDecl` node of declaration `d`
  | seq (a b : TExp)    -- children visited in order
deriving DecidableEq, Repr

/-- A declaration's type-instance expression and optional initialiser
(`vd->ti()`, `vd->e()`). -/
structure DeclData where
  ti : TExp
  init : Option TExp
deriving DecidableEq, Repr

/-- Sorter state: the position map `pos` (with the in-progress sentinel
`-1`) and the output order `decls`.  The map is an association list whose
most recent entry wins, standing for the `unordered_map`. -/
structure TSt where
  pos : List (Nat × Int)
  decls : List Nat
deriving DecidableEq, Repr

/-- Errors of the sorter: the fatal "circular definition" type error
(line 1227), a violation of the `assert(pi->second != -1)` at line 1342,
and fuel exhaustion of the model's step bound. -/
inductive TErr where
  | circular (d : Nat)
  | assertFail (d : Nat)
  | fuel
deriving DecidableEq, Repr

/-- `pos.find`. -/
def alookup : List (Nat × Int) → Nat → Option Int
  | [], _ => none
  | (k, v) :: r, d => if k = d then some v else alookup r d

/-- `TopoSorter::run` (typecheck.cpp:1239-1394) together with
`TopoSorter::checkId` (lines 1205-1231), with an explicit step bound:

* `eid d` is `checkId`: a declaration without a position is visited
  (`pushToplevel; run(decl); pop`, lines 1217-1221); position `-1` raises
  the circular-definition error (lines 1224-1228);
* `evd d` is the `E_VARDECL` case (lines 1330-1344): mark in progress with
  `-1`, run the type-instance, run the initialiser, then stamp
  `pos = decls.size()` and append to `decls`. -/
def runT (env : Nat → DeclData) : Nat → TSt → TExp → Except TErr TSt
  | 0, _, _ => .error .fuel
  | _+1, s, .lit => .ok s
  | fuel+1, s, .seq a b =>
    match runT env fuel s a with
    | .error er => .error er
    | .ok s1 => runT env fuel s1 b
  | fuel+1, s, .eid d =>
    match alookup s.pos d with
    | none => runT env fuel s (.evd d)
    | some k => if k = -1 then .error (.circular d) else .ok s
  | fuel+1, s, .evd d =>
    match alookup s.pos d with
    | some k => if k = -1 then .error (.assertFail d) else .ok s
    | none =>
      let s1 : TSt := ⟨(d, -1) :: s.pos, s.decls⟩
      match runT env fuel s1 (env d).ti with
      | .error er => .error er
      | .ok s2 =>
        match
          (match (env d).init with
           | none => Except.ok s2
           | some ie => runT env fuel s2 ie) with
        | .error er => .error er
        | .ok s3 =>
          .ok ⟨(d, (s3.decls.length : Int)) :: s3.pos, s3.decls ++ [d]⟩

/-- The item walk `TSV1` (typecheck.cpp:3193-3228): `ts.run` on every
toplevel item in order; toplevel declarations appear as `evd` items. -/
def runItems (env : Nat → DeclData) : Nat → TSt → List TExp → Except TErr TSt
  | 0, _, _ => .error .fuel
  | _+1, s, [] => .ok s
  | fuel+1, s, it :: its =>
    match runT env fuel s it with
    | .error er => .error er
    | .ok s1 => runItems env fuel s1 its

/-- `UseIn env d e`: the expression `e` contains a use of declaration `d` —
an identifier resolved to `d`, or `d`'s own `VarDecl` node, including
occurrences inside the type-instances and initialisers of nested (let- or
generator-bound) declarations, exactly the tree `TopoSorter::run`
traverses. -/
inductive UseIn (env : Nat → DeclData) : Nat → TExp → Prop where
  | here (d : Nat) : UseIn env d (.eid d)
  | seqL {d : Nat} {a b : TExp} : UseIn env d a → UseIn env d (.seq a b)
  | seqR {d : Nat} {a b : TExp} : UseIn env d b → UseIn env d (.seq a b)
  | self (x : Nat) : UseIn env x (.evd x)
  | vdTi {d x : Nat} : UseIn env d (env x).ti → UseIn env d (.evd x)
  | vdInit {d x : Nat} {ie : TExp} : (env x).init = some ie →
      UseIn env d ie → UseIn env d (.evd x)

/-- `UsesOf env d x`: declaration `x`'s type-instance or initialiser uses
declaration `d`. -/
def UsesOf (env : Nat → DeclData) (d x : Nat) : Prop :=
  UseIn env d (env x).ti ∨ ∃ ie, (env x).init = some ie ∧ UseIn env d ie

/-- Sorter-state invariant: non-sentinel positions are exactly the indices
of `decls`, and every completed declaration's uses are completed at
strictly smaller positions. -/
structure TInv (env : Nat → DeclData) (s : TSt) : Prop where
  posIdx : ∀ d k, alookup s.pos d = some k → k ≠ -1 →
    ∃ i : Nat, k = (i : Int) ∧ s.decls.get? i = some d
  declsPos : ∀ i d, s.decls.get? i = some d → alookup s.pos d = some (i : Int)
  usesDone : ∀ x k, alookup s.pos x = some k → k ≠ -1 →
    ∀ d, UsesOf env d x →
      ∃ j : Nat, alookup s.pos d = some (j : Int) ∧ (j : Int) < k

/-- State extension along a run: existing position entries are preserved
verbatim and the output order grows at the end. -/
structure TExt (s s₂ : TSt) : Prop where
  posKeep : ∀ d k, alookup s.pos d = some k → alookup s₂.pos d = some k
  declsPref : ∃ t, s₂.decls = s.decls ++ t

/-- After a successful run of `e`, every use in `e` has a completed
(non-negative) position. -/
def TPost (env : Nat → DeclData) (e : TExp) (s : TSt) : Prop :=
  ∀ d, UseIn env d e → ∃ j : Nat, alookup s.pos d = some (j : Int)

/-! ### Concrete sorter runs used by the claims -/

/-- `int: x = y + 1; int: y = 1;` — declaration 0 uses declaration 1. -/
def tpEnvEx : Nat → DeclData := fun n =>
  if n = 1 then ⟨.lit, some .lit⟩ else ⟨.lit, some (.eid 1)⟩

/-- `int: x = y + 1; int: y = x + 1;` — scenario 4's circular model. -/
def tpEnvCirc : Nat → DeclData := fun n =>
  if n = 1 then ⟨.lit, some (.eid 0)⟩ else ⟨.lit, some (.eid 1)⟩

/-- The final state of running `tpEnvEx`'s two toplevel declarations. -/
def tpStEx : TSt := ⟨[(0, 1), (1, 0), (1, -1), (0, -1)], [1, 0]⟩

end MZ

/-! # Theorems -/

namespace MZ

/-- Helper: `findAux` agrees with the first hit on the outward chain,
falling back to the outermost scope. -/
theorem findAux_eq_spec (s : List Scope) (ident : Ident) :
    ∀ cur, findAux s ident cur =
      match firstHit s ident (outwardVisit s cur) with
      | some d => some d
      | none => lookupId (getScope s 0).m ident := by
  intro cur
  induction cur with
  | zero =>
    cases h : lookupId (getScope s 0).m ident <;>
      simp [findAux, outwardVisit, firstHit, h]
  | succ c ih =>
    cases h : lookupId (getScope s (c+1)).m ident with
    | some d => simp [findAux, outwardVisit, firstHit, h]
    | none =>
      by_cases ht : (getScope s (c+1)).toplevel
      · cases h0 : lookupId (getScope s 0).m ident <;>
          simp [findAux, outwardVisit, firstHit, h, ht, h0]
      · simpa [findAux, outwardVisit, firstHit, h, ht] using ih

end MZ

/-- C3: Scope lookup order.  `Scopes::find` (typecheck.cpp:78-96) equals the
claimed search: starting at the innermost scope, proceed outwards through
`inner`/`function` scopes; upon reaching any toplevel scope that does not
contain the identifier, jump directly to the outermost toplevel scope; the
result is the declaration found in the first scope visited in this order, or
failure if the outermost toplevel scope does not contain the identifier. -/
theorem c3_scope_lookup_order (s : List MZ.Scope) (ident : MZ.Ident)
    (hne : s ≠ []) (h0 : (MZ.getScope s 0).toplevel) :
    MZ.scFind s ident = MZ.scFindSpec s ident := by
  unfold MZ.scFind MZ.scFindSpec
  exact MZ.findAux_eq_spec s ident (s.length - 1)

/-- Witness for C3 at a concrete stack: an inner scope above a function scope
above two toplevel scopes; the identifier sits only in the outermost scope
and is found there by the jump. -/
theorem c3_scope_lookup_order_witness :
    ([⟨MZ.SKind.toplevel, [(⟨"x", 0⟩, 7)]⟩, ⟨MZ.SKind.toplevel, []⟩,
      ⟨MZ.SKind.fn, []⟩, ⟨MZ.SKind.inner, []⟩] : List MZ.Scope) ≠ [] ∧
    MZ.scFind [⟨MZ.SKind.toplevel, [(⟨"x", 0⟩, 7)]⟩, ⟨MZ.SKind.toplevel, []⟩,
      ⟨MZ.SKind.fn, []⟩, ⟨MZ.SKind.inner, []⟩] ⟨"x", 0⟩ =
    MZ.scFindSpec [⟨MZ.SKind.toplevel, [(⟨"x", 0⟩, 7)]⟩, ⟨MZ.SKind.toplevel, []⟩,
      ⟨MZ.SKind.fn, []⟩, ⟨MZ.SKind.inner, []⟩] ⟨"x", 0⟩ :=
  ⟨by decide,
   c3_scope_lookup_order _ ⟨"x", 0⟩ (by decide) (by decide)⟩

/-- C10: `Scopes::add` (typecheck.cpp:31-34) throws the type error
"enums are only allowed at top level" whenever the current scope is not a
toplevel scope, the declaration's type-instance is flagged as an enum, and
the declaration has an initialiser. -/
theorem c10_enums_only_toplevel (s : List MZ.Scope) (vd : MZ.VDsc) (d : Nat)
    (hcur : (MZ.getScope s (s.length - 1)).st ≠ MZ.SKind.toplevel)
    (henum : vd.tiIsEnum = true) (hrhs : vd.hasRHS = true) :
    MZ.scAdd s vd d = (false, .error .enumsOnlyTopLevel) := by
  unfold MZ.scAdd
  have h1 : ¬ (MZ.getScope s (s.length - 1)).toplevel := by
    simp [MZ.Scope.toplevel, hcur]
  simp [h1, henum, hrhs]

/-- Witness for C10: a let-style inner scope rejecting an enum declaration. -/
theorem c10_enums_only_toplevel_witness :
    MZ.scAdd [⟨MZ.SKind.toplevel, []⟩, ⟨MZ.SKind.inner, []⟩]
      ⟨⟨"E", 0⟩, true, true⟩ 3 = (false, .error .enumsOnlyTopLevel) :=
  c10_enums_only_toplevel _ _ _ (by decide) (by decide) (by decide)

/-- C9 counterexample: the claim asserts a shadow warning whenever *some*
enclosing toplevel or function scope contains the identifier; but
`Scopes::add` stops its scan at the first non-`inner` scope (line 53-55).
With stack `[toplevel containing x, function, inner]`, adding `x` to the
inner scope emits no warning although the enclosing toplevel scope contains
`x`, and the add succeeds. -/
theorem c9_counterexample :
    (MZ.scAdd [⟨MZ.SKind.toplevel, [(⟨"x", -1⟩, 5)]⟩, ⟨MZ.SKind.fn, []⟩,
        ⟨MZ.SKind.inner, []⟩] ⟨⟨"x", -1⟩, false, false⟩ 9).1 = false ∧
    MZ.lookupId (MZ.getScope [⟨MZ.SKind.toplevel, [(⟨"x", -1⟩, 5)]⟩,
        ⟨MZ.SKind.fn, []⟩, ⟨MZ.SKind.inner, []⟩] 0).m ⟨"x", -1⟩ = some 5 ∧
    (MZ.scAdd [⟨MZ.SKind.toplevel, [(⟨"x", -1⟩, 5)]⟩, ⟨MZ.SKind.fn, []⟩,
        ⟨MZ.SKind.inner, []⟩] ⟨⟨"x", -1⟩, false, false⟩ 9).2 =
      .ok [⟨MZ.SKind.toplevel, [(⟨"x", -1⟩, 5)]⟩, ⟨MZ.SKind.fn, []⟩,
        ⟨MZ.SKind.inner, [(⟨"x", -1⟩, 9)]⟩] :=
  ⟨rfl, rfl, rfl⟩

/-- C9 (amended): when a named declaration is added to an inner scope (and
the enum guard does not fire), `Scopes::add` emits a shadow warning exactly
when the identifier is found while scanning outwards through the chain of
adjacent enclosing `inner` scopes up to and including the first enclosing
non-`inner` (function or toplevel) scope; no error is raised by the warning
itself. -/
theorem c9_shadow_warning (s : List MZ.Scope) (vd : MZ.VDsc) (d : Nat)
    (hguard : ¬ (¬ (MZ.getScope s (s.length - 1)).toplevel ∧
        vd.tiIsEnum ∧ vd.hasRHS))
    (hnamed : ¬ (vd.id.idn = -1 ∧ vd.id.v = "")) :
    (MZ.scAdd s vd d).1 = true ↔
      ((MZ.getScope s (s.length - 1)).st = MZ.SKind.inner ∧
       MZ.scanShadow ((s.take (s.length - 1)).reverse) vd.id = true) := by
  unfold MZ.scAdd
  simp only [hguard, if_false, hnamed]
  cases h : MZ.lookupId (MZ.getScope s (s.length - 1)).m vd.id with
  | none => simp [h, decide_eq_true_iff]
  | some k =>
    by_cases hidn : vd.id.idn ≥ -1 <;>
      simp [h, hidn, decide_eq_true_iff]

/-- Witness for C9 (amended) at the spec's example
`int: x = 1; constraint let { int: x = 2 } in x = x;`: stack
`[toplevel containing x, inner]`; the warning fires and no error is
raised. -/
theorem c9_shadow_warning_witness :
    ((MZ.scAdd [⟨MZ.SKind.toplevel, [(⟨"x", -1⟩, 5)]⟩, ⟨MZ.SKind.inner, []⟩]
        ⟨⟨"x", -1⟩, false, false⟩ 9).1 = true ↔
      ((MZ.getScope [⟨MZ.SKind.toplevel, [(⟨"x", -1⟩, 5)]⟩,
          ⟨MZ.SKind.inner, []⟩] 1).st = MZ.SKind.inner ∧
       MZ.scanShadow [⟨MZ.SKind.toplevel, [(⟨"x", -1⟩, 5)]⟩] ⟨"x", -1⟩ = true)) ∧
    (MZ.scAdd [⟨MZ.SKind.toplevel, [(⟨"x", -1⟩, 5)]⟩, ⟨MZ.SKind.inner, []⟩]
        ⟨⟨"x", -1⟩, false, false⟩ 9).1 = true ∧
    (MZ.scAdd [⟨MZ.SKind.toplevel, [(⟨"x", -1⟩, 5)]⟩, ⟨MZ.SKind.inner, []⟩]
        ⟨⟨"x", -1⟩, false, false⟩ 9).2 =
      .ok [⟨MZ.SKind.toplevel, [(⟨"x", -1⟩, 5)]⟩,
           ⟨MZ.SKind.inner, [(⟨"x", -1⟩, 9)]⟩] :=
  ⟨c9_shadow_warning _ _ _ (by decide) (by decide), rfl, rfl⟩

/-- C8: Missing-input post-condition (typecheck.cpp:3799-3810).  For a
toplevel declaration of par, non-ann type with no initialiser: if the type
is optional and scalar, the initialiser becomes `absent` and the
`mzn_was_undefined` annotation is added (and no error is emitted); otherwise
a "must be defined" error is appended unless `ignoreUndefinedParameters`
was passed, in which case no error is produced. -/
theorem c8_missing_input (ignoreUndefinedParameters : Bool) (d : MZ.PDecl)
    (htop : d.toplevel = true) (hpar : d.ty.isPar) (hann : ¬ d.ty.isAnn)
    (hnoe : d.e = none) :
    (d.ty.isOpt ∧ d.ty.dim = 0 →
      MZ.finalizeDecl ignoreUndefinedParameters d =
        ({ d with e := some .absentLit,
                  anns := d.anns ++ ["mzn_was_undefined"] }, [])) ∧
    (¬ (d.ty.isOpt ∧ d.ty.dim = 0) →
      (ignoreUndefinedParameters = false →
        MZ.finalizeDecl ignoreUndefinedParameters d = (d, ["must be defined"])) ∧
      (ignoreUndefinedParameters = true →
        MZ.finalizeDecl ignoreUndefinedParameters d = (d, []))) := by
  constructor
  · intro hopt
    unfold MZ.finalizeDecl
    simp [htop, hpar, hann, hnoe, hopt]
  · intro hopt
    constructor
    · intro hig
      unfold MZ.finalizeDecl
      simp [htop, hpar, hann, hnoe, hopt, hig]
    · intro hig
      unfold MZ.finalizeDecl
      simp [htop, hpar, hann, hnoe, hopt, hig]

/-- Witness for C8: an `opt int` parameter without data defaults to `absent`
with the marker annotation, and a plain `int` parameter without data yields
the error exactly when `ignoreUndefinedParameters` is false. -/
theorem c8_missing_input_witness :
    (MZ.optParint.isOpt ∧ MZ.optParint.dim = 0 →
      MZ.finalizeDecl false ⟨true, MZ.optParint, none, []⟩ =
        (⟨true, MZ.optParint, some .absentLit, ["mzn_was_undefined"]⟩, [])) ∧
    (¬ (MZ.optParint.isOpt ∧ MZ.optParint.dim = 0) →
      (false = false →
        MZ.finalizeDecl false ⟨true, MZ.optParint, none, []⟩ =
          (⟨true, MZ.optParint, none, []⟩, ["must be defined"])) ∧
      (false = true →
        MZ.finalizeDecl false ⟨true, MZ.optParint, none, []⟩ =
          (⟨true, MZ.optParint, none, []⟩, []))) :=
  c8_missing_input false ⟨true, MZ.optParint, none, []⟩
    (by decide) (by decide) (by decide) (by decide)

/-- C4: Coercion insertion (typecheck.cpp:1497-1553).  For an expression of
scalar type and a target of the same (zero) dimension with differing base
kinds, neither of which is bottom or top, `add_coercion` wraps the
expression in exactly one call — `bool2int`, `bool2float` or `int2float` —
and for every other base-kind pair it throws a type error.  The registry is
assumed to contain the three widening builtins (they are part of the
standard-library interface, spec §6). -/
theorem c4_coercion_insertion (reg : List String) (e : MZ.CExpr) (t : MZ.MType)
    (hed : e.tyOf.dim = 0) (htd : t.dim = 0)
    (hne : e.tyOf.bt ≠ t.bt)
    (heb : e.tyOf.bt ≠ .bot) (het : e.tyOf.bt ≠ .top)
    (htb : t.bt ≠ .bot) (htt : t.bt ≠ .top)
    (hr1 : "bool2int" ∈ reg) (hr2 : "bool2float" ∈ reg)
    (hr3 : "int2float" ∈ reg) :
    (e.tyOf.bt = .bool ∧ t.bt = .int →
      MZ.addCoercion reg e t =
        .ok (.callE "bool2int" [e] { e.tyOf with bt := .int })) ∧
    (e.tyOf.bt = .bool ∧ t.bt = .float →
      MZ.addCoercion reg e t =
        .ok (.callE "bool2float" [e] { e.tyOf with bt := .float })) ∧
    (e.tyOf.bt = .int ∧ t.bt = .float →
      MZ.addCoercion reg e t =
        .ok (.callE "int2float" [e] { e.tyOf with bt := .float })) ∧
    (¬ (e.tyOf.bt = .bool ∧ t.bt = .int) →
     ¬ (e.tyOf.bt = .bool ∧ t.bt = .float) →
     ¬ (e.tyOf.bt = .int ∧ t.bt = .float) →
      MZ.addCoercion reg e t = .error .cannotCoerce) := by
  have h1 : ¬ (e.tyOf.dim = t.dim ∧
      (t.bt = .bot ∨ t.bt = .top ∨ e.tyOf.bt = t.bt ∨ e.tyOf.bt = .bot)) := by
    rintro ⟨-, h | h | h | h⟩
    · exact htb h
    · exact htt h
    · exact hne h
    · exact heb h
  have h2 : ¬ (e.tyOf.dim = 0 ∧ t.dim ≠ 0) := by
    rintro ⟨-, h⟩; exact h htd
  have h3 : ¬ (t.bt = .top ∨ e.tyOf.bt = t.bt ∨ e.tyOf.bt = .bot) := by
    rintro (h | h | h)
    · exact htt h
    · exact hne h
    · exact heb h
  have hred : MZ.addCoercion reg e t =
      (match e.tyOf.bt, t.bt with
       | .bool, .int =>
         if "bool2int" ∈ reg then
           .ok (.callE "bool2int" [e]
             { MZ.coerceRT .int e.tyOf with
                 cv := e.tyOf.cv || (MZ.coerceRT .int e.tyOf).cv })
         else .error .cannotCoerce
       | .bool, .float =>
         if "bool2float" ∈ reg then
           .ok (.callE "bool2float" [e]
             { MZ.coerceRT .float e.tyOf with
                 cv := e.tyOf.cv || (MZ.coerceRT .float e.tyOf).cv })
         else .error .cannotCoerce
       | .int, .float =>
         if "int2float" ∈ reg then
           .ok (.callE "int2float" [e]
             { MZ.coerceRT .float e.tyOf with
                 cv := e.tyOf.cv || (MZ.coerceRT .float e.tyOf).cv })
         else .error .cannotCoerce
       | _, _ => .error .cannotCoerce) := by
    unfold MZ.addCoercion
    rw [if_neg h1, if_neg h2]
    simp only []
    rw [if_neg h3]
  refine ⟨?_, ?_, ?_, ?_⟩
  · rintro ⟨hb, ht⟩
    rw [hred, hb, ht, if_pos hr1]
    simp [MZ.coerceRT, Bool.or_self]
  · rintro ⟨hb, ht⟩
    rw [hred, hb, ht, if_pos hr2]
    simp [MZ.coerceRT, Bool.or_self]
  · rintro ⟨hb, ht⟩
    rw [hred, hb, ht, if_pos hr3]
    simp [MZ.coerceRT, Bool.or_self]
  · intro hA hB hC
    rw [hred]
    cases hE : e.tyOf.bt <;> cases hT : t.bt <;>
      first
        | rfl
        | (exfalso; simp_all)

/-- Witness for C4, spec scenario 1: for `var bool: b; var int: x = b;`
the initialiser of `x` becomes `bool2int(b)` of type `var int`. -/
theorem c4_coercion_insertion_witness :
    MZ.addCoercion ["bool2int", "bool2float", "int2float"]
      (.identE "b" MZ.varbool) MZ.varint =
      .ok (.callE "bool2int" [.identE "b" MZ.varbool] MZ.varint) :=
  (c4_coercion_insertion ["bool2int", "bool2float", "int2float"]
      (.identE "b" MZ.varbool) MZ.varint
      rfl rfl (by decide) (by decide) (by decide) (by decide) (by decide)
      (by decide) (by decide) (by decide)).1 ⟨rfl, rfl⟩

/-- C2 counterexample: on the claimed input
`sum(i in 1..5) (a[i] = 3) >= n`, the comparison maps through the switch at
typecheck.cpp:2338-2359 (`BOT_GQ → count_leq`) to `count_leq`, not to the
`count_geq` the claim expects. -/
theorem c2_counterexample :
    MZ.countRewrite MZ.cntReg .gq MZ.cntSum MZ.cntN MZ.varbool =
      .ok (some (.callN "count_leq"
        [MZ.cntComp2, .intLit 3 MZ.parint, MZ.cntN] MZ.varbool)) ∧
    MZ.countRewrite MZ.cntReg .gq MZ.cntSum MZ.cntN MZ.varbool ≠
      .ok (some (.callN "count_geq"
        [MZ.cntComp2, .intLit 3 MZ.parint, MZ.cntN] MZ.varbool)) := by
  refine ⟨rfl, ?_⟩
  intro h
  rw [show MZ.countRewrite MZ.cntReg .gq MZ.cntSum MZ.cntN MZ.varbool =
      .ok (some (.callN "count_leq"
        [MZ.cntComp2, .intLit 3 MZ.parint, MZ.cntN] MZ.varbool)) from rfl] at h
  simp at h

/-- C2 (amended): on
`var int: n; constraint sum(i in 1..5) (a[i] = 3) >= n;` the binary-operator
rule rewrites the comparison into the call
`count_leq([a[i] | i in 1..5], 3, n)` (the declaration bound via the
registry), and the orientation is normalised first when the sum/count call
is on the right-hand side: `n <= sum(i in 1..5)(a[i] = 3)` yields the same
call. -/
theorem c2_count_rewrite :
    MZ.countRewrite MZ.cntReg .gq MZ.cntSum MZ.cntN MZ.varbool =
      .ok (some (.callN "count_leq"
        [MZ.cntComp2, .intLit 3 MZ.parint, MZ.cntN] MZ.varbool)) ∧
    MZ.countRewrite MZ.cntReg .lq MZ.cntN MZ.cntSum MZ.varbool =
      .ok (some (.callN "count_leq"
        [MZ.cntComp2, .intLit 3 MZ.parint, MZ.cntN] MZ.varbool)) :=
  ⟨rfl, rfl⟩

/-- C6 counterexample: for `enum E = {A, B, C};` the constant emitted for
`A` carries `Type::parenum` (typecheck.cpp:248), i.e. *par* `E`, not the
`var E` the claim asserts. -/
theorem c6_counterexample :
    (MZ.elabEnumSetLit "E" 1 ["A", "B", "C"]).1.head? =
      some (.varDeclI "A" (MZ.parenum 1) (.toEnumE (.idE "E") (.intE 1))) ∧
    (MZ.parenum 1).ti = MZ.TIk.par ∧ MZ.TIk.par ≠ MZ.TIk.var :=
  ⟨rfl, rfl, by decide⟩

/-- C6 (amended): for `enum E = {A, B, C};` the elaborator emits toplevel
constant declarations for `A`, `B`, `C` of *par* `E` type initialised with
`to_enum(E, k)` for `k = 1, 2, 3`, the string-array constant
`_enum_to_string_0_E = ["A","B","C"]` and the
`_toString_E(opt int, bool, bool)` function, and rewrites `E`'s right-hand
side to `1..3` — in general to `1 .. totalCardinality` (`1..0` for an empty
enum). -/
theorem c6_enum_elaboration :
    (MZ.elabEnumSetLit "E" 1 ["A", "B", "C"]).1 =
      [.varDeclI "A" (MZ.parenum 1) (.toEnumE (.idE "E") (.intE 1)),
       .varDeclI "B" (MZ.parenum 1) (.toEnumE (.idE "E") (.intE 2)),
       .varDeclI "C" (MZ.parenum 1) (.toEnumE (.idE "E") (.intE 3)),
       .varDeclI "_enum_to_string_0_E" MZ.parstring1
         (.arrE [.strE "A", .strE "B", .strE "C"]),
       .funcI "_toString_E" MZ.parstring
         [("x", MZ.optParint), ("b", MZ.parbool), ("json", MZ.parbool)]
         (some (MZ.setLitToStringBody "_enum_to_string_0_E" none))] ∧
    (MZ.elabEnumSetLit "E" 1 ["A", "B", "C"]).2 =
      .binE .dotdot (.intE 1) (.intE 3) ∧
    ∀ ename enumId ids, (MZ.elabEnumSetLit ename enumId ids).2 =
      .binE .dotdot (.intE 1)
        (if ids.isEmpty then .intE 0 else .intE ids.length) := by
  refine ⟨rfl, rfl, ?_⟩
  intro ename enumId ids
  cases ids with
  | nil => rfl
  | cons a as =>
    simp [MZ.elabEnumSetLit, MZ.setLitPartCard, MZ.toEnumArg]

/-- C7: Constructor round-trip.  For an enum part `C(E)` with `E` the
contiguous range `lo..hi`, the generated bodies
`C(x) = to_enum(X, constructorArgMin + x)` and
`C⁻¹(x) = to_enum(E, x − constructorArgMin)` satisfy `C⁻¹(C(e)) = e` for
every `e ∈ E` and `C(C⁻¹(x)) = x` for every `x` in the range of `C`
(`constructorArgMin + lo .. constructorArgMin + hi`). -/
theorem c7_constructor_roundtrip (X E cmin : String) (hc : cmin ≠ "x")
    (m lo hi e x : Int)
    (he1 : lo ≤ e) (he2 : e ≤ hi)
    (hx1 : m + lo ≤ x) (hx2 : x ≤ m + hi) :
    (MZ.runCons (MZ.cBody X cmin) m e = some (m + e) ∧
     MZ.runCons (MZ.cInvBody E cmin) m (m + e) = some e) ∧
    (MZ.runCons (MZ.cInvBody E cmin) m x = some (x - m) ∧
     MZ.runCons (MZ.cBody X cmin) m (x - m) = some x) := by
  refine ⟨⟨?_, ?_⟩, ?_, ?_⟩ <;>
    simp [MZ.runCons, MZ.cBody, MZ.cInvBody, MZ.evalE, hc]

/-- Witness for C7 at `E = 1..3`, offset `m = 5`, member `e = 2` and range
element `x = 7`. -/
theorem c7_constructor_roundtrip_witness :
    (MZ.runCons (MZ.cBody "X" "_constrMin_0_X") 5 2 = some 7 ∧
     MZ.runCons (MZ.cInvBody "E" "_constrMin_0_X") 5 7 = some 2) ∧
    (MZ.runCons (MZ.cInvBody "E" "_constrMin_0_X") 5 7 = some 2 ∧
     MZ.runCons (MZ.cBody "X" "_constrMin_0_X") 5 2 = some 7) :=
  c7_constructor_roundtrip "X" "E" "_constrMin_0_X" (by decide)
    5 1 3 2 7 (by decide) (by decide) (by decide) (by decide)

namespace MZ

theorem alookup_cons_self {p : List (Nat × Int)} {d : Nat} {v : Int} :
    alookup ((d, v) :: p) d = some v := by simp [alookup]

theorem alookup_cons_ne {p : List (Nat × Int)} {d d' : Nat} {v : Int}
    (h : d ≠ d') : alookup ((d, v) :: p) d' = alookup p d' := by
  simp [alookup, h]

theorem text_refl (s : TSt) : TExt s s :=
  ⟨fun _ _ h => h, ⟨[], by simp⟩⟩

theorem text_trans {s t u : TSt} (h1 : TExt s t) (h2 : TExt t u) : TExt s u := by
  refine ⟨fun d k h => h2.posKeep d k (h1.posKeep d k h), ?_⟩
  obtain ⟨a, ha⟩ := h1.declsPref
  obtain ⟨b, hb⟩ := h2.declsPref
  exact ⟨a ++ b, by rw [hb, ha, List.append_assoc]⟩

theorem tpost_mono {env : Nat → DeclData} {e : TExp} {s s₂ : TSt}
    (hp : TPost env e s) (he : TExt s s₂) : TPost env e s₂ := by
  intro d hu
  obtain ⟨j, hj⟩ := hp d hu
  exact ⟨j, he.posKeep d _ hj⟩

theorem tinv_empty (env : Nat → DeclData) : TInv env ⟨[], []⟩ := by
  refine ⟨?_, ?_, ?_⟩
  · intro d k h _
    simp [alookup] at h
  · intro i d h
    simp at h
  · intro x k h _
    simp [alookup] at h

/-- Marking a fresh declaration in progress preserves the invariant. -/
theorem tinv_mark {env : Nat → DeclData} {s : TSt} {d : Nat}
    (hinv : TInv env s) (hd : alookup s.pos d = none) :
    TInv env ⟨(d, -1) :: s.pos, s.decls⟩ := by
  refine ⟨?_, ?_, ?_⟩
  · intro d' k hk hne
    by_cases hdd : d = d'
    · subst hdd
      rw [alookup_cons_self] at hk
      cases hk
      exact absurd rfl hne
    · rw [alookup_cons_ne hdd] at hk
      exact hinv.posIdx d' k hk hne
  · intro i d' hget
    have h := hinv.declsPos i d' hget
    by_cases hdd : d = d'
    · subst hdd
      rw [hd] at h
      cases h
    · rw [alookup_cons_ne hdd]
      exact h
  · intro x k hk hne d' hu
    by_cases hdx : d = x
    · subst hdx
      rw [alookup_cons_self] at hk
      cases hk
      exact absurd rfl hne
    · rw [alookup_cons_ne hdx] at hk
      obtain ⟨j, hj, hlt⟩ := hinv.usesDone x k hk hne d' hu
      have hdd : d ≠ d' := by
        intro h
        subst h
        rw [hd] at hj
        cases hj
      rw [alookup_cons_ne hdd]
      exact ⟨j, hj, hlt⟩

/-- A completed position entry is never the in-progress declaration. -/
theorem ne_of_pos_entry {p : List (Nat × Int)} {d d' : Nat} {j : Nat}
    (hd : alookup p d = some (-1))
    (hj : alookup p d' = some (j : Int)) : d ≠ d' := by
  intro h
  subst h
  rw [hd] at hj
  cases hj

/-- Completing a declaration: stamping `pos = decls.size()` and appending
preserves the invariant when every use is already completed. -/
theorem tinv_complete {env : Nat → DeclData} {s3 : TSt} {d : Nat}
    (hinv3 : TInv env s3) (hd3 : alookup s3.pos d = some (-1))
    (huse : ∀ d', UsesOf env d' d →
      ∃ j : Nat, alookup s3.pos d' = some (j : Int)) :
    TInv env ⟨(d, (s3.decls.length : Int)) :: s3.pos, s3.decls ++ [d]⟩ := by
  refine ⟨?_, ?_, ?_⟩
  · intro d' k hk hne
    by_cases hdd : d = d'
    · subst hdd
      rw [alookup_cons_self] at hk
      cases hk
      exact ⟨s3.decls.length, rfl, by rw [List.get?_concat_length]⟩
    · rw [alookup_cons_ne hdd] at hk
      obtain ⟨i, hki, hget⟩ := hinv3.posIdx d' k hk hne
      obtain ⟨hlt, -⟩ := List.get?_eq_some.mp hget
      exact ⟨i, hki, by rw [List.get?_append hlt]; exact hget⟩
  · intro i d' hget
    by_cases hi : i < s3.decls.length
    · rw [List.get?_append hi] at hget
      have h := hinv3.declsPos i d' hget
      have hdd : d ≠ d' := by
        intro hh
        subst hh
        rw [hd3] at h
        cases h
      rw [alookup_cons_ne hdd]
      exact h
    · rw [List.get?_append_right (le_of_not_lt hi)] at hget
      rcases hdiff : i - s3.decls.length with - | m
      · rw [hdiff] at hget
        cases hget
        have : i = s3.decls.length := by omega
        subst this
        exact alookup_cons_self
      · rw [hdiff] at hget
        simp at hget
  · intro x k hk hne d' hu
    by_cases hdx : d = x
    · subst hdx
      rw [alookup_cons_self] at hk
      cases hk
      obtain ⟨j, hj⟩ := huse d' hu
      have hdd : d ≠ d' := ne_of_pos_entry hd3 hj
      refine ⟨j, by rw [alookup_cons_ne hdd]; exact hj, ?_⟩
      obtain ⟨i, hji, hget⟩ := hinv3.posIdx d' _ hj (by omega)
      obtain ⟨hlt, -⟩ := List.get?_eq_some.mp hget
      have : (j : Int) = (i : Int) := hji
      omega
    · rw [alookup_cons_ne hdx] at hk
      obtain ⟨j, hj, hlt⟩ := hinv3.usesDone x k hk hne d' hu
      have hdd : d ≠ d' := ne_of_pos_entry hd3 hj
      rw [alookup_cons_ne hdd]
      exact ⟨j, hj, hlt⟩

/-- The bundled conclusion for the completing `E_VARDECL` case. -/
theorem topo_finish {env : Nat → DeclData} {s s3 : TSt} {d : Nat}
    (hl : alookup s.pos d = none)
    (hinv3 : TInv env s3)
    (hd3 : alookup s3.pos d = some (-1))
    (hkeep : ∀ d' k, alookup s.pos d' = some k → alookup s3.pos d' = some k)
    (hpref : ∃ t, s3.decls = s.decls ++ t)
    (huse : ∀ d', UsesOf env d' d →
      ∃ j : Nat, alookup s3.pos d' = some (j : Int)) :
    TInv env ⟨(d, (s3.decls.length : Int)) :: s3.pos, s3.decls ++ [d]⟩ ∧
    TExt s ⟨(d, (s3.decls.length : Int)) :: s3.pos, s3.decls ++ [d]⟩ ∧
    TPost env (.evd d)
      ⟨(d, (s3.decls.length : Int)) :: s3.pos, s3.decls ++ [d]⟩ := by
  refine ⟨tinv_complete hinv3 hd3 huse, ⟨?_, ?_⟩, ?_⟩
  · intro d' k hk
    have hdd : d ≠ d' := by
      intro h
      subst h
      rw [hl] at hk
      cases hk
    rw [alookup_cons_ne hdd]
    exact hkeep d' k hk
  · obtain ⟨t, ht⟩ := hpref
    exact ⟨t ++ [d], by simp [ht]⟩
  · intro d' hu
    cases hu with
    | self => exact ⟨s3.decls.length, alookup_cons_self⟩
    | vdTi hu' =>
      obtain ⟨j, hj⟩ := huse d' (Or.inl hu')
      exact ⟨j, by rw [alookup_cons_ne (ne_of_pos_entry hd3 hj)]; exact hj⟩
    | vdInit hie hu' =>
      obtain ⟨j, hj⟩ := huse d' (Or.inr ⟨_, hie, hu'⟩)
      exact ⟨j, by rw [alookup_cons_ne (ne_of_pos_entry hd3 hj)]; exact hj⟩

/-- Soundness of one `TopoSorter::run` call: a successful run preserves the
invariant, extends the state, and completes every use in the expression. -/
theorem runT_sound (env : Nat → DeclData) :
    ∀ fuel s e s₂, TInv env s → runT env fuel s e = .ok s₂ →
      TInv env s₂ ∧ TExt s s₂ ∧ TPost env e s₂ := by
  intro fuel
  induction fuel with
  | zero =>
    intro s e s₂ _ h
    simp [runT] at h
  | succ f ih =>
    intro s e s₂ hinv hrun
    cases e with
    | lit =>
      simp only [runT, Except.ok.injEq] at hrun
      subst hrun
      exact ⟨hinv, text_refl s, fun d hu => by cases hu⟩
    | seq a b =>
      simp only [runT] at hrun
      cases h1 : runT env f s a with
      | error er => simp [h1] at hrun
      | ok s1 =>
        simp only [h1] at hrun
        obtain ⟨hinv1, hext1, hpost1⟩ := ih s a s1 hinv h1
        obtain ⟨hinv2, hext2, hpost2⟩ := ih s1 b s₂ hinv1 hrun
        refine ⟨hinv2, text_trans hext1 hext2, ?_⟩
        intro d hu
        cases hu with
        | seqL hu' => exact tpost_mono hpost1 hext2 d hu'
        | seqR hu' => exact hpost2 d hu'
    | eid d =>
      simp only [runT] at hrun
      cases hl : alookup s.pos d with
      | none =>
        simp only [hl] at hrun
        obtain ⟨hinv1, hext1, hpost1⟩ := ih s (.evd d) s₂ hinv hrun
        refine ⟨hinv1, hext1, ?_⟩
        intro d' hu
        cases hu
        exact hpost1 d (UseIn.self d)
      | some k =>
        simp only [hl] at hrun
        by_cases hk : k = -1
        · simp [hk] at hrun
        · rw [if_neg hk] at hrun
          simp only [Except.ok.injEq] at hrun
          subst hrun
          refine ⟨hinv, text_refl s, ?_⟩
          intro d' hu
          cases hu
          obtain ⟨i, hki, -⟩ := hinv.posIdx d k hl hk
          exact ⟨i, by rw [← hki]; exact hl⟩
    | evd d =>
      simp only [runT] at hrun
      cases hl : alookup s.pos d with
      | some k =>
        simp only [hl] at hrun
        by_cases hk : k = -1
        · simp [hk] at hrun
        · rw [if_neg hk] at hrun
          simp only [Except.ok.injEq] at hrun
          subst hrun
          refine ⟨hinv, text_refl s, ?_⟩
          intro d' hu
          cases hu with
          | self =>
            obtain ⟨i, hki, -⟩ := hinv.posIdx d k hl hk
            exact ⟨i, by rw [← hki]; exact hl⟩
          | vdTi hu' =>
            obtain ⟨j, hj, -⟩ := hinv.usesDone d k hl hk _ (Or.inl hu')
            exact ⟨j, hj⟩
          | vdInit hie hu' =>
            obtain ⟨j, hj, -⟩ := hinv.usesDone d k hl hk _ (Or.inr ⟨_, hie, hu'⟩)
            exact ⟨j, hj⟩
      | none =>
        simp only [hl] at hrun
        cases h2 : runT env f ⟨(d, -1) :: s.pos, s.decls⟩ (env d).ti with
        | error er => simp [h2] at hrun
        | ok s2 =>
          simp only [h2] at hrun
          have hinv1 : TInv env ⟨(d, -1) :: s.pos, s.decls⟩ := tinv_mark hinv hl
          obtain ⟨hinv2, hext2, hpost2⟩ := ih _ _ _ hinv1 h2
          have hd1 : alookup ((d, -1) :: s.pos) d = some (-1) := alookup_cons_self
          have hkeep0 : ∀ d' k, alookup s.pos d' = some k →
              alookup ((d, -1) :: s.pos) d' = some k := by
            intro d' k hk
            have hdd : d ≠ d' := by
              intro h
              subst h
              rw [hl] at hk
              cases hk
            rw [alookup_cons_ne hdd]
            exact hk
          cases hI : (env d).init with
          | none =>
            simp only [hI, Except.ok.injEq] at hrun
            subst hrun
            refine topo_finish hl hinv2 (hext2.posKeep _ _ hd1) ?_ ?_ ?_
            · intro d' k hk
              exact hext2.posKeep d' k (hkeep0 d' k hk)
            · exact hext2.declsPref
            · intro d' hu
              rcases hu with hu' | ⟨ie, hie, -⟩
              · exact hpost2 d' hu'
              · rw [hI] at hie
                cases hie
          | some ie =>
            simp only [hI] at hrun
            cases h3 : runT env f s2 ie with
            | error er => simp [h3] at hrun
            | ok s3 =>
              simp only [h3, Except.ok.injEq] at hrun
              subst hrun
              obtain ⟨hinv3, hext3, hpost3⟩ := ih s2 ie s3 hinv2 h3
              refine topo_finish hl hinv3
                (hext3.posKeep _ _ (hext2.posKeep _ _ hd1)) ?_ ?_ ?_
              · intro d' k hk
                exact hext3.posKeep d' k (hext2.posKeep d' k (hkeep0 d' k hk))
              · obtain ⟨t1, ht1⟩ := hext2.declsPref
                obtain ⟨t2, ht2⟩ := hext3.declsPref
                exact ⟨t1 ++ t2, by simp [ht2, ht1]⟩
              · intro d' hu
                rcases hu with hu' | ⟨ie', hie', hu'⟩
                · exact tpost_mono hpost2 hext3 d' hu'
                · rw [hI] at hie'
                  cases hie'
                  exact hpost3 d' hu'

/-- Soundness of the toplevel item walk (`TSV1`). -/
theorem runItems_sound (env : Nat → DeclData) :
    ∀ fuel s items s₂, TInv env s → runItems env fuel s items = .ok s₂ →
      TInv env s₂ ∧ TExt s s₂ ∧ ∀ it ∈ items, TPost env it s₂ := by
  intro fuel
  induction fuel with
  | zero =>
    intro s items s₂ _ h
    simp [runItems] at h
  | succ f ih =>
    intro s items s₂ hinv hrun
    cases items with
    | nil =>
      simp only [runItems, Except.ok.injEq] at hrun
      subst hrun
      exact ⟨hinv, text_refl s, by simp⟩
    | cons it its =>
      simp only [runItems] at hrun
      cases h1 : runT env f s it with
      | error er => simp [h1] at hrun
      | ok s1 =>
        simp only [h1] at hrun
        obtain ⟨hinvT, hextT, hpostT⟩ := runT_sound env f s it s1 hinv h1
        obtain ⟨hinv2, hext2, hpost2⟩ := ih s1 its s₂ hinvT hrun
        refine ⟨hinv2, text_trans hextT hext2, ?_⟩
        intro it' hmem
        rcases List.mem_cons.mp hmem with rfl | hmem'
        · exact tpost_mono hpostT hext2
        · exact hpost2 it' hmem'

end MZ

/-- C1: Topological-order invariant.  When the topological sorter completes
the item walk without error from the empty state: every toplevel
declaration item has a defined, non-sentinel position; for every use `d`
inside the type-instance or initialiser of a declaration `u` with a
completed position, `pos[d] < pos[u]`; and completed positions are
distinct, so `pos` is a linear extension of the definition-use partial
order. -/
theorem c1_toposort_linear_extension (env : Nat → MZ.DeclData) (fuel : Nat)
    (items : List MZ.TExp) (s₂ : MZ.TSt)
    (h : MZ.runItems env fuel ⟨[], []⟩ items = .ok s₂) :
    (∀ d, MZ.TExp.evd d ∈ items →
      ∃ j : Nat, MZ.alookup s₂.pos d = some (j : Int)) ∧
    (∀ u k, MZ.alookup s₂.pos u = some k → k ≠ -1 →
      ∀ d, MZ.UsesOf env d u →
        ∃ j : Nat, MZ.alookup s₂.pos d = some (j : Int) ∧ (j : Int) < k) ∧
    (∀ u v (j : Nat), MZ.alookup s₂.pos u = some (j : Int) →
      MZ.alookup s₂.pos v = some (j : Int) → u = v) := by
  obtain ⟨hinv, -, hpost⟩ :=
    MZ.runItems_sound env fuel ⟨[], []⟩ items s₂ (MZ.tinv_empty env) h
  refine ⟨?_, hinv.usesDone, ?_⟩
  · intro d hmem
    exact hpost (MZ.TExp.evd d) hmem d (MZ.UseIn.self d)
  · intro u v j hu hv
    obtain ⟨i, hji, hgetu⟩ := hinv.posIdx u (j : Int) hu (by omega)
    obtain ⟨i', hji', hgetv⟩ := hinv.posIdx v (j : Int) hv (by omega)
    have hij : j = i := Nat.cast_inj.mp hji
    have hij' : j = i' := Nat.cast_inj.mp hji'
    subst hij
    subst hij'
    rw [hgetu] at hgetv
    cases hgetv
    rfl

/-- Witness for C1: the two-declaration model `int: x = y + 1; int: y = 1;`
(declaration 0 uses declaration 1) sorts successfully into `tpStEx`, where
both declarations are positioned and `pos[1] = 0 < 1 = pos[0]`. -/
theorem c1_toposort_linear_extension_witness :
    (∀ d, MZ.TExp.evd d ∈ [MZ.TExp.evd 0, MZ.TExp.evd 1] →
      ∃ j : Nat, MZ.alookup MZ.tpStEx.pos d = some (j : Int)) ∧
    (∀ u k, MZ.alookup MZ.tpStEx.pos u = some k → k ≠ -1 →
      ∀ d, MZ.UsesOf MZ.tpEnvEx d u →
        ∃ j : Nat, MZ.alookup MZ.tpStEx.pos d = some (j : Int) ∧ (j : Int) < k) ∧
    (∀ u v (j : Nat), MZ.alookup MZ.tpStEx.pos u = some (j : Int) →
      MZ.alookup MZ.tpStEx.pos v = some (j : Int) → u = v) :=
  c1_toposort_linear_extension MZ.tpEnvEx 10 [MZ.TExp.evd 0, MZ.TExp.evd 1]
    MZ.tpStEx rfl

/-- C5: Circular-definition failure.  When an identifier resolves to a
declaration whose recorded position is the in-progress sentinel `-1`,
`TopoSorter::checkId` throws the "circular definition" type error
immediately; the error propagates and halts the walk, as on scenario 4's
model `int: x = y + 1; int: y = x + 1;` (declarations 0 and 1 using each
other), whose item walk yields the circular-definition error at
declaration 0. -/
theorem c5_circular_definition :
    (∀ (env : Nat → MZ.DeclData) (fuel : Nat) (s : MZ.TSt) (d : Nat),
      MZ.alookup s.pos d = some (-1) →
      MZ.runT env (fuel + 1) s (.eid d) = .error (.circular d)) ∧
    MZ.runItems MZ.tpEnvCirc 10 ⟨[], []⟩ [.evd 0, .evd 1] =
      .error (.circular 0) := by
  constructor
  · intro env fuel s d h
    simp [MZ.runT, h]
  · rfl

/-- Witness for C5 at a concrete in-progress state. -/
theorem c5_circular_definition_witness :
    MZ.runT MZ.tpEnvCirc 1 ⟨[(0, -1)], []⟩ (.eid 0) = .error (.circular 0) :=
  c5_circular_definition.1 MZ.tpEnvCirc 0 ⟨[(0, -1)], []⟩ 0 rfl
